import Mathlib

/-!
Verification of the GitHub Pages explorer component
(`src/github-pages.tsx`).  The component fetches a user's repositories
from the GitHub REST API, keeps those with the pages feature enabled,
applies a live case-insensitive text filter, and renders a grid of
cards with derived links.  The definitions below are a shallow
embedding of that code: JavaScript strings become Lean `String`s
(character-based), JavaScript `null` becomes `Option`, JavaScript
truthiness of strings (`""` and `null` are falsy) is modelled
explicitly, and the asynchronous fetch becomes a pure state-transition
function parameterised by the outcome of the HTTP exchange.
-/

namespace GitHubPagesExplorer

/-- JavaScript string helpers, modelled over the character list. -/
def jsToLower (s : String) : String :=
  ⟨s.data.map Char.toLower⟩

/-- One step of substring search: `t` occurs in `s` iff `t` is a
prefix of `s` or occurs in the tail of `s`.  Models
`String.prototype.includes`. -/
def containsList : List Char → List Char → Bool
  | s, t =>
    if t.isPrefixOf s then true
    else
      match s with
      | [] => false
      | _ :: rest => containsList rest t

/-- Model of `s.includes(t)` for JavaScript strings. -/
def jsIncludes (s t : String) : Bool :=
  containsList s.data t.data

/-- Model of `s.startsWith(t)` for JavaScript strings. -/
def jsStartsWith (s t : String) : Bool :=
  t.data.isPrefixOf s.data

/-- Model of `s.trim()` for JavaScript strings: strip whitespace from
both ends. -/
def jsTrim (s : String) : String :=
  ⟨((s.data.dropWhile Char.isWhitespace).reverse.dropWhile Char.isWhitespace).reverse⟩

/-- JavaScript truthiness of a string: `""` is falsy, everything else
is truthy. -/
def jsStrTruthy (s : String) : Bool :=
  !s.data.isEmpty

/-- JavaScript truthiness of a nullable string: `null` and `""` are
falsy. -/
def jsOptTruthy : Option String → Bool
  | none => false
  | some s => jsStrTruthy s

/-- The `GitHubRepo` interface of `src/github-pages.tsx` (lines
12-23).  Nullable fields become `Option`. -/
structure GitHubRepo where
  id : Nat
  name : String
  full_name : String
  description : Option String
  html_url : String
  homepage : Option String
  has_pages : Bool
  language : Option String
  stargazers_count : Nat
  updated_at : String
deriving DecidableEq, Repr

/-- The filter predicate of the second `useEffect` (lines 37-44):
`repo.name.toLowerCase().includes(searchTerm.toLowerCase()) ||
(repo.description && repo.description.toLowerCase().includes(searchTerm.toLowerCase()))`.
The `repo.description &&` guard uses JavaScript truthiness, so an
empty-string description short-circuits to false. -/
def repoMatches (searchTerm : String) (repo : GitHubRepo) : Bool :=
  jsIncludes (jsToLower repo.name) (jsToLower searchTerm) ||
    (jsOptTruthy repo.description &&
      jsIncludes (jsToLower (repo.description.getD "")) (jsToLower searchTerm))

/-- The derived `filteredRepos` state (lines 37-44). -/
def filterRepos (repos : List GitHubRepo) (searchTerm : String) : List GitHubRepo :=
  repos.filter (fun repo => repoMatches searchTerm repo)

/-- The helper `truncateDescription` (lines 92-95).  `!description` is true in
JavaScript for both `null` and `""`; otherwise the description is cut
at `maxLength` characters with an ellipsis appended.  The component
always calls it with the default `maxLength = 120`. -/
def truncateDescription (description : Option String) (maxLength : Nat) : String :=
  if !(jsOptTruthy description) then "No description available"
  else
    let d := description.getD ""
    if d.data.length > maxLength then ⟨d.data.take maxLength⟩ ++ "..." else d

/-- The helper `getPageUrl` (lines 97-103): use the homepage when it is truthy
and starts with `"http"`, otherwise construct the canonical GitHub
Pages URL from the current username and the repository name. -/
def getPageUrl (username : String) (repo : GitHubRepo) : String :=
  if jsOptTruthy repo.homepage && jsStartsWith (repo.homepage.getD "") "http" then
    repo.homepage.getD ""
  else
    "https://" ++ username ++ ".github.io/" ++ repo.name

/-- The card's repository link (line 214): `repo.html_url` verbatim. -/
def repoLink (repo : GitHubRepo) : String :=
  repo.html_url

/-- The guard `token && token.trim()` (lines 56-60): a credential counts as
configured when it is non-null, truthy, and has a truthy trim. -/
def tokenConfigured : Option String → Bool
  | none => false
  | some t => jsStrTruthy t && jsStrTruthy (jsTrim t)

/-- The `Authorization` header value (line 57):
`token ${token.trim()}` when a credential is configured, otherwise the
header is absent. -/
def authHeader (token : Option String) : Option String :=
  if tokenConfigured token then some ("token " ++ jsTrim (token.getD "")) else none

/-- The request URL (line 62):
`https://api.github.com/users/${username}/repos?per_page=100`. -/
def apiUrl (username : String) : String :=
  "https://api.github.com/users/" ++ username ++ "/repos?per_page=100"

/-- The outgoing HTTP GET request: its URL and its optional
`Authorization` header. -/
structure HttpRequest where
  url : String
  authorization : Option String
deriving DecidableEq, Repr

/-- A value thrown inside the `try` block: either an `Error` instance
carrying a message, or some non-`Error` value. -/
inductive JsThrown where
  | error (msg : String)
  | nonError
deriving DecidableEq, Repr

/-- The `catch` clause (line 86):
evaluates `err instanceof Error ? err.message : "An error occurred"`. -/
def thrownMessage : JsThrown → String
  | .error msg => msg
  | .nonError => "An error occurred"

/-- The outcome of the HTTP exchange, supplied by the environment: a
response with a status code and a JSON body (whose parse may itself
throw), or a network failure thrown by `fetch`. -/
inductive FetchResult where
  | response (status : Nat) (body : Except JsThrown (List GitHubRepo))
  | networkFailure (e : JsThrown)
deriving Repr

/-- The test `response.ok`: status in the range 200-299. -/
def isOkStatus (status : Nat) : Bool :=
  200 ≤ status && status < 300

/-- The error message thrown for a non-ok response (lines 64-77):
status 403 distinguishes a configured credential from a missing one;
every other status gets the generic message. -/
def fetchErrorMessage (status : Nat) (hasCredential : Bool) : String :=
  if status = 403 then
    if hasCredential then
      "Failed to fetch repositories: " ++ toString status ++
        ". This might be due to an invalid or expired GitHub token, or insufficient permissions. Please check your NEXT_PUBLIC_GITHUB_TOKEN."
    else
      "Failed to fetch repositories: " ++ toString status ++
        ". This is likely due to rate limiting. Please set NEXT_PUBLIC_GITHUB_TOKEN in your .env.local file to increase the rate limit."
  else
    "Failed to fetch repositories: " ++ toString status

/-- The body of the `try` block (lines 52-84) as a pure computation:
a network failure propagates; a non-ok status throws the classified
error; an ok status yields the parsed body (whose parse may throw). -/
def tryBlock (token : Option String) (result : FetchResult) :
    Except JsThrown (List GitHubRepo) :=
  match result with
  | .networkFailure e => .error e
  | .response status body =>
    if isOkStatus status then body
    else .error (.error (fetchErrorMessage status (tokenConfigured token)))

/-- The component state: the five `useState` hooks plus the username
field. -/
structure ComponentState where
  repos : List GitHubRepo
  filteredRepos : List GitHubRepo
  loading : Bool
  error : Option String
  searchTerm : String
  username : String
deriving Repr

/-- One invocation of `fetchGitHubPages` (lines 46-90), given the
configured token and the outcome of the HTTP exchange.  Returns the
resulting state together with the request that was issued (`none` when
the blank-username guard on line 47 returns early).  On success the
stored list is replaced by the pages-enabled subset and the
`filteredRepos` effect re-runs; on failure only `error` (and the
transient `loading` flag) change. -/
def fetchGitHubPagesStep (s : ComponentState) (token : Option String)
    (result : FetchResult) : ComponentState × Option HttpRequest :=
  if !(jsStrTruthy (jsTrim s.username)) then (s, none)
  else
    let req : HttpRequest := ⟨apiUrl s.username, authHeader token⟩
    match tryBlock token result with
    | .ok allRepos =>
      let pagesRepos := allRepos.filter (fun repo => repo.has_pages)
      ({ s with repos := pagesRepos,
                filteredRepos := filterRepos pagesRepos s.searchTerm,
                loading := false,
                error := none }, some req)
    | .error e =>
      ({ s with error := some (thrownMessage e), loading := false }, some req)

/-- What the main region of the component renders. -/
inductive RenderView where
  | loadingSkeleton
  | repoGrid (repos : List GitHubRepo)
  | emptyState (username : String)
  | nothing
deriving DecidableEq, Repr

/-- The render branch of lines 156-238:
`loading ? skeleton : filteredRepos.length > 0 ? grid :
!loading && repos.length === 0 && username ? emptyState : null`. -/
def renderMain (s : ComponentState) : RenderView :=
  if s.loading then .loadingSkeleton
  else if s.filteredRepos.length > 0 then .repoGrid s.filteredRepos
  else if !s.loading && s.repos.length == 0 && jsStrTruthy s.username then
    .emptyState s.username
  else .nothing

/-- The empty-state paragraph (lines 233-236), which quotes the
username. -/
def emptyStateMessage (username : String) : String :=
  "No repositories with GitHub Pages were found for user \"" ++ username ++
    "\". Make sure you have repositories with GitHub Pages enabled."

/-- The text-filter predicate as the spec words it: the name contains
the term case-insensitively, or the description is present and
contains the term case-insensitively.  Written from the spec for the
refinement claim about the filter; compare with `repoMatches`. -/
def specFilterPred (searchTerm : String) (repo : GitHubRepo) : Bool :=
  jsIncludes (jsToLower repo.name) (jsToLower searchTerm) ||
    (match repo.description with
     | none => false
     | some d => jsIncludes (jsToLower d) (jsToLower searchTerm))

/-- The site link as the spec words it: the homepage when present and
starting with `"http"`, otherwise the constructed GitHub Pages URL.
Written from the spec for the refinement claim about link
derivation; compare with `getPageUrl`. -/
def specPageUrl (username : String) (repo : GitHubRepo) : String :=
  match repo.homepage with
  | some h => if jsStartsWith h "http" then h
              else "https://" ++ username ++ ".github.io/" ++ repo.name
  | none => "https://" ++ username ++ ".github.io/" ++ repo.name

/-!
Helper lemmas about the JavaScript string model.
-/

/-- Every string contains the empty pattern: searching for `[]`
succeeds immediately. -/
theorem containsList_nil_right (s : List Char) : containsList s [] = true := by
  unfold containsList
  simp [List.isPrefixOf]

/-- The empty string contains only the empty pattern. -/
theorem containsList_nil_left {t : List Char} (h : containsList [] t = true) : t = [] := by
  unfold containsList at h
  cases t with
  | nil => rfl
  | cons c cs => simp [List.isPrefixOf] at h

/-- Correctness of the substring search: `containsList s t` holds
exactly when `t` is an infix of `s`. -/
theorem containsList_iff (t s : List Char) : containsList s t = true ↔ t <:+: s := by
  induction s with
  | nil =>
    unfold containsList
    cases t with
    | nil => simp
    | cons c cs => simp [List.isPrefixOf]
  | cons a rest ih =>
    unfold containsList
    rw [List.infix_cons_iff, ← ih, ← List.isPrefixOf_iff_prefix]
    cases h : t.isPrefixOf (a :: rest) <;> cases hc : containsList rest t <;> simp [h, hc]

/-- Every JavaScript string includes the empty search term. -/
theorem jsIncludes_empty_term (s : String) : jsIncludes s "" = true := by
  unfold jsIncludes
  exact containsList_nil_right s.data

/-- The component's filter predicate coincides with the spec's wording
of it: the truthiness guard on the description only short-circuits for
the empty description, and an empty description can only contain the
empty term, which the name check already accepts. -/
theorem repoMatches_eq_spec (t : String) (r : GitHubRepo) :
    repoMatches t r = specFilterPred t r := by
  unfold repoMatches specFilterPred
  cases hd : r.description with
  | none => simp [jsOptTruthy]
  | some d =>
    cases hdd : d.data with
    | cons c cs =>
      simp [jsOptTruthy, jsStrTruthy, hdd]
    | nil =>
      have hlow : (jsToLower d).data = [] := by simp [jsToLower, hdd]
      simp only [jsOptTruthy, jsStrTruthy, hdd, List.isEmpty_nil, Bool.not_true,
        Bool.false_and, Bool.or_false, Option.getD_some]
      cases hc : containsList [] ((jsToLower t).data) with
      | false =>
        unfold jsIncludes
        rw [hlow, hc, Bool.or_false]
      | true =>
        have := containsList_nil_left hc
        unfold jsIncludes
        rw [hlow, hc, this, containsList_nil_right]
        simp

/-!
The claims.
-/

/-- C1: for every fetched set of repositories and every search term,
the text filter retains exactly the entries whose name contains the
term case-insensitively, or whose description is present and contains
the term case-insensitively; the empty term yields the full fetched
set unchanged. -/
theorem text_filter_correct (repos : List GitHubRepo) (searchTerm : String) :
    filterRepos repos searchTerm = repos.filter (specFilterPred searchTerm) ∧
    filterRepos repos "" = repos := by
  constructor
  · unfold filterRepos
    simp only [repoMatches_eq_spec]
  · unfold filterRepos
    apply List.filter_eq_self.mpr
    intro r _
    unfold repoMatches
    have : (jsToLower "").data = [] := rfl
    unfold jsIncludes
    rw [this, containsList_nil_right]
    simp

/-- C2: for every successful fetch response, the stored list becomes
exactly the entries whose `has_pages` flag is true, independently of
whatever list was stored before (wholesale replacement). -/
theorem fetch_success_replaces (s : ComponentState) (token : Option String)
    (status : Nat) (allRepos : List GitHubRepo)
    (hu : jsStrTruthy (jsTrim s.username) = true)
    (hok : isOkStatus status = true) :
    (fetchGitHubPagesStep s token (.response status (.ok allRepos))).1.repos =
      allRepos.filter (fun repo => repo.has_pages) := by
  unfold fetchGitHubPagesStep tryBlock
  rw [hu]
  simp [hok]

/-- Witness for C2: a fetch returning one pages-enabled and one plain
repository replaces a non-empty previously stored list with exactly
the pages-enabled entry. -/
theorem fetch_success_replaces_witness :
    (fetchGitHubPagesStep
      ⟨[⟨1, "old", "octocat/old", none, "u1", none, true, none, 0, "d"⟩],
       [⟨1, "old", "octocat/old", none, "u1", none, true, none, 0, "d"⟩],
       false, none, "", "octocat"⟩
      none
      (.response 200 (.ok
        [⟨2, "site", "octocat/site", none, "u2", none, true, none, 3, "d"⟩,
         ⟨3, "lib", "octocat/lib", none, "u3", none, false, none, 4, "d"⟩]))).1.repos =
      [⟨2, "site", "octocat/site", none, "u2", none, true, none, 3, "d"⟩] := by
  have h := fetch_success_replaces
    ⟨[⟨1, "old", "octocat/old", none, "u1", none, true, none, 0, "d"⟩],
     [⟨1, "old", "octocat/old", none, "u1", none, true, none, 0, "d"⟩],
     false, none, "", "octocat"⟩
    none 200
    [⟨2, "site", "octocat/site", none, "u2", none, true, none, 3, "d"⟩,
     ⟨3, "lib", "octocat/lib", none, "u3", none, false, none, 4, "d"⟩]
    (by decide) (by decide)
  rw [h]
  decide

/-- C3: every non-ok response stores exactly the classified error
message: status 403 with a configured credential yields the
invalid-or-expired-token message, status 403 without one yields the
rate-limiting message, and every other non-ok status yields the
generic status-coded message. -/
theorem fetch_error_classification (s : ComponentState) (token : Option String)
    (status : Nat) (body : Except JsThrown (List GitHubRepo))
    (hu : jsStrTruthy (jsTrim s.username) = true)
    (hok : isOkStatus status = false) :
    (fetchGitHubPagesStep s token (.response status body)).1.error =
      some (fetchErrorMessage status (tokenConfigured token)) ∧
    (status = 403 → tokenConfigured token = true →
      fetchErrorMessage status (tokenConfigured token) =
        "Failed to fetch repositories: 403. This might be due to an invalid or expired GitHub token, or insufficient permissions. Please check your NEXT_PUBLIC_GITHUB_TOKEN.") ∧
    (status = 403 → tokenConfigured token = false →
      fetchErrorMessage status (tokenConfigured token) =
        "Failed to fetch repositories: 403. This is likely due to rate limiting. Please set NEXT_PUBLIC_GITHUB_TOKEN in your .env.local file to increase the rate limit.") ∧
    (status ≠ 403 →
      fetchErrorMessage status (tokenConfigured token) =
        "Failed to fetch repositories: " ++ toString status) := by
  refine ⟨?_, ?_, ?_, ?_⟩
  · unfold fetchGitHubPagesStep tryBlock
    rw [hu]
    simp [hok, thrownMessage]
  · intro h403 htok
    subst h403
    rw [htok]
    rfl
  · intro h403 htok
    subst h403
    rw [htok]
    rfl
  · intro hne
    unfold fetchErrorMessage
    rw [if_neg hne]

/-- Witness for C3: a 403 with a configured credential stores the
invalid-token message, and a 500 without one stores the generic
status-coded message. -/
theorem fetch_error_classification_witness :
    (fetchGitHubPagesStep ⟨[], [], true, none, "", "octocat"⟩ (some "ghp")
      (.response 403 (.ok []))).1.error =
      some "Failed to fetch repositories: 403. This might be due to an invalid or expired GitHub token, or insufficient permissions. Please check your NEXT_PUBLIC_GITHUB_TOKEN." ∧
    (fetchGitHubPagesStep ⟨[], [], true, none, "", "octocat"⟩ none
      (.response 500 (.ok []))).1.error =
      some "Failed to fetch repositories: 500" := by
  constructor
  · have h := fetch_error_classification ⟨[], [], true, none, "", "octocat"⟩
      (some "ghp") 403 (.ok []) (by decide) (by decide)
    rw [h.1, h.2.1 rfl (by decide)]
  · have h := fetch_error_classification ⟨[], [], true, none, "", "octocat"⟩
      none 500 (.ok []) (by decide) (by decide)
    rw [h.1, h.2.2.2 (by decide)]
    rfl

/-- C4: the derived site link equals the homepage field when it is
present and starts with "http", and otherwise is the constructed
GitHub Pages URL; the repository link is `html_url` verbatim; the
spec's two concrete examples evaluate as stated. -/
theorem getPageUrl_correct :
    (∀ (u : String) (r : GitHubRepo), getPageUrl u r = specPageUrl u r) ∧
    (∀ r : GitHubRepo, repoLink r = r.html_url) ∧
    getPageUrl "octocat"
      ⟨1, "blog", "octocat/blog", none, "https://github.com/octocat/blog",
        some "https://example.com", true, none, 0, "2024-01-01T00:00:00Z"⟩ =
      "https://example.com" ∧
    getPageUrl "octocat"
      ⟨1, "blog", "octocat/blog", none, "https://github.com/octocat/blog",
        none, true, none, 0, "2024-01-01T00:00:00Z"⟩ =
      "https://octocat.github.io/blog" := by
  refine ⟨?_, fun r => rfl, by decide, by decide⟩
  intro u r
  unfold getPageUrl specPageUrl
  cases hh : r.homepage with
  | none => simp [jsOptTruthy]
  | some h =>
    cases hhd : h.data with
    | cons c cs => simp [jsOptTruthy, jsStrTruthy, hhd]
    | nil =>
      have : jsStartsWith h "http" = false := by
        unfold jsStartsWith
        rw [hhd]
        decide
      simp [jsOptTruthy, jsStrTruthy, hhd, this]

/-- C5 counterexample: the empty description has length at most 120
yet is not returned unchanged — the JavaScript truthiness check
`!description` routes it to the placeholder text. -/
theorem truncateDescription_claim_ce :
    ("" : String).data.length ≤ 120 ∧
    truncateDescription (some "") 120 ≠ "" := by
  decide

/-- C5 (amended): the truncation returns the placeholder text when the
description is null or empty, returns a non-empty description of at
most 120 characters unchanged, and cuts a longer description to its
first 120 characters followed by "...". -/
theorem truncateDescription_correct :
    truncateDescription none 120 = "No description available" ∧
    truncateDescription (some "") 120 = "No description available" ∧
    (∀ d : String, d.data ≠ [] → d.data.length ≤ 120 →
      truncateDescription (some d) 120 = d) ∧
    (∀ d : String, d.data.length > 120 →
      truncateDescription (some d) 120 = String.mk (d.data.take 120) ++ "...") := by
  refine ⟨rfl, rfl, ?_, ?_⟩
  · intro d hne hlen
    unfold truncateDescription
    have ht : jsOptTruthy (some d) = true := by
      simp [jsOptTruthy, jsStrTruthy, hne]
    rw [ht]
    simp only [Bool.not_true, Bool.false_eq_true, if_false, Option.getD_some]
    rw [if_neg (by omega)]
  · intro d hlen
    unfold truncateDescription
    have hne : d.data ≠ [] := by
      intro h
      rw [h] at hlen
      simp at hlen
    have ht : jsOptTruthy (some d) = true := by
      simp [jsOptTruthy, jsStrTruthy, hne]
    rw [ht]
    simp only [Bool.not_true, Bool.false_eq_true, if_false, Option.getD_some]
    rw [if_pos hlen]

set_option maxRecDepth 4000

/-- Witness for C5: a 50-character description renders unchanged and a
130-character description is cut to 120 characters plus the
ellipsis. -/
theorem truncateDescription_correct_witness :
    truncateDescription (some "A fifty character description padded out to size!!") 120 =
      "A fifty character description padded out to size!!" ∧
    truncateDescription (some "xxxxxxxxxxxxxxxxxxxxxxxxxxxxxxxxxxxxxxxxxxxxxxxxxxxxxxxxxxxxxxxxxxxxxxxxxxxxxxxxxxxxxxxxxxxxxxxxxxxxxxxxxxxxxxxxxxxxxxxxxxxxxxxxxx") 120 =
      "xxxxxxxxxxxxxxxxxxxxxxxxxxxxxxxxxxxxxxxxxxxxxxxxxxxxxxxxxxxxxxxxxxxxxxxxxxxxxxxxxxxxxxxxxxxxxxxxxxxxxxxxxxxxxxxxxxxxxxxx" ++ "..." := by
  constructor
  · exact truncateDescription_correct.2.2.1 _ (by decide) (by decide)
  · have h := truncateDescription_correct.2.2.2
      "xxxxxxxxxxxxxxxxxxxxxxxxxxxxxxxxxxxxxxxxxxxxxxxxxxxxxxxxxxxxxxxxxxxxxxxxxxxxxxxxxxxxxxxxxxxxxxxxxxxxxxxxxxxxxxxxxxxxxxxxxxxxxxxxxx"
      (by decide)
    rw [h]
    rfl

set_option maxRecDepth 512

/-- C6: every failing fetch (network error, non-ok status, or
malformed body, i.e. any outcome the try block converts to an error)
leaves the stored and filtered repository lists, the search term and
the username untouched, and only stores the error message. -/
theorem fetch_error_preserves (s : ComponentState) (token : Option String)
    (result : FetchResult) (e : JsThrown)
    (hu : jsStrTruthy (jsTrim s.username) = true)
    (he : tryBlock token result = .error e) :
    (fetchGitHubPagesStep s token result).1.repos = s.repos ∧
    (fetchGitHubPagesStep s token result).1.filteredRepos = s.filteredRepos ∧
    (fetchGitHubPagesStep s token result).1.error = some (thrownMessage e) ∧
    (fetchGitHubPagesStep s token result).1.searchTerm = s.searchTerm ∧
    (fetchGitHubPagesStep s token result).1.username = s.username := by
  unfold fetchGitHubPagesStep
  rw [hu, he]
  simp

/-- Witness for C6: a network failure after a successful fetch keeps
the previously stored list and only sets the error message. -/
theorem fetch_error_preserves_witness :
    (fetchGitHubPagesStep
      ⟨[⟨1, "site", "octocat/site", none, "u", none, true, none, 0, "d"⟩],
       [⟨1, "site", "octocat/site", none, "u", none, true, none, 0, "d"⟩],
       false, none, "", "octocat"⟩
      none (.networkFailure (.error "network down"))).1.repos =
      [⟨1, "site", "octocat/site", none, "u", none, true, none, 0, "d"⟩] ∧
    (fetchGitHubPagesStep
      ⟨[⟨1, "site", "octocat/site", none, "u", none, true, none, 0, "d"⟩],
       [⟨1, "site", "octocat/site", none, "u", none, true, none, 0, "d"⟩],
       false, none, "", "octocat"⟩
      none (.networkFailure (.error "network down"))).1.error =
      some "network down" := by
  have h := fetch_error_preserves
    ⟨[⟨1, "site", "octocat/site", none, "u", none, true, none, 0, "d"⟩],
     [⟨1, "site", "octocat/site", none, "u", none, true, none, 0, "d"⟩],
     false, none, "", "octocat"⟩
    none (.networkFailure (.error "network down")) (.error "network down")
    (by decide) rfl
  exact ⟨h.1, h.2.2.1⟩

/-- C7: every issued request carries the component's URL and exactly
the modelled `Authorization` header: present with value
`token <trimmed credential>` when a non-blank credential is
configured, absent otherwise. -/
theorem fetch_request_auth (s : ComponentState) (token : Option String)
    (result : FetchResult)
    (hu : jsStrTruthy (jsTrim s.username) = true) :
    (fetchGitHubPagesStep s token result).2 =
      some ⟨apiUrl s.username, authHeader token⟩ ∧
    (tokenConfigured token = true →
      authHeader token = some ("token " ++ jsTrim (token.getD ""))) ∧
    (tokenConfigured token = false → authHeader token = none) := by
  refine ⟨?_, ?_, ?_⟩
  · unfold fetchGitHubPagesStep
    rw [hu]
    cases h : tryBlock token result <;> simp
  · intro htok
    unfold authHeader
    rw [htok]
    simp
  · intro htok
    unfold authHeader
    rw [htok]
    simp

/-- Witness for C7: a padded credential yields the request with the
trimmed token in the `Authorization` header, and a missing credential
yields no header. -/
theorem fetch_request_auth_witness :
    (fetchGitHubPagesStep ⟨[], [], true, none, "", "octocat"⟩ (some " ghp ")
      (.response 200 (.ok []))).2 =
      some ⟨"https://api.github.com/users/octocat/repos?per_page=100", some "token ghp"⟩ ∧
    authHeader none = none := by
  constructor
  · have h := fetch_request_auth ⟨[], [], true, none, "", "octocat"⟩
      (some " ghp ") (.response 200 (.ok [])) (by decide)
    rw [h.1, h.2.1 (by decide)]
    decide
  · have h := fetch_request_auth ⟨[], [], true, none, "", "octocat"⟩
      none (.response 200 (.ok [])) (by decide)
    exact h.2.2 (by decide)

/-- C8: a completed fetch that stored zero pages-enabled repositories,
with a non-empty username, renders the empty-state view, whose message
contains that username as a substring. -/
theorem empty_fetch_renders_empty_state (s : ComponentState)
    (hl : s.loading = false) (hr : s.repos = [])
    (hf : s.filteredRepos = filterRepos s.repos s.searchTerm)
    (hu : jsStrTruthy s.username = true) :
    renderMain s = .emptyState s.username ∧
    jsIncludes (emptyStateMessage s.username) s.username = true := by
  constructor
  · have hfe : s.filteredRepos = [] := by rw [hf, hr]; rfl
    unfold renderMain
    rw [hl, hr, hfe, hu]
    simp
  · unfold jsIncludes emptyStateMessage
    refine (containsList_iff _ _).mpr ?_
    refine ⟨("No repositories with GitHub Pages were found for user \"" : String).data,
      ("\". Make sure you have repositories with GitHub Pages enabled." : String).data, ?_⟩
    simp

/-- Witness for C8: a finished fetch for "octocat" with no
pages-enabled repositories renders the empty state quoting
"octocat". -/
theorem empty_fetch_renders_empty_state_witness :
    renderMain ⟨[], [], false, none, "", "octocat"⟩ = .emptyState "octocat" ∧
    jsIncludes (emptyStateMessage "octocat") "octocat" = true :=
  empty_fetch_renders_empty_state ⟨[], [], false, none, "", "octocat"⟩
    rfl rfl rfl (by decide)

/-- C9: when the stored pages-enabled list is non-empty but the
current search term filters it down to the empty list, the main region
renders nothing — neither the grid nor the empty state, because the
empty-state branch also requires the unfiltered list to be empty. -/
theorem filtered_empty_renders_nothing (s : ComponentState)
    (hl : s.loading = false) (hr : s.repos ≠ [])
    (hf : s.filteredRepos = filterRepos s.repos s.searchTerm)
    (hfe : filterRepos s.repos s.searchTerm = []) :
    renderMain s = .nothing := by
  have h1 : s.filteredRepos = [] := by rw [hf, hfe]
  have h2 : (s.repos.length == 0) = false := by
    cases hrr : s.repos with
    | nil => exact absurd hrr hr
    | cons a l => simp
  unfold renderMain
  rw [hl, h1, h2]
  simp

/-- Witness for C9: one stored repository named "blog" with search
term "zzz" filters to the empty list and the region renders
nothing. -/
theorem filtered_empty_renders_nothing_witness :
    renderMain ⟨[⟨1, "blog", "octocat/blog", none, "u", none, true, none, 0, "d"⟩],
      [], false, none, "zzz", "octocat"⟩ = .nothing :=
  filtered_empty_renders_nothing
    ⟨[⟨1, "blog", "octocat/blog", none, "u", none, true, none, 0, "d"⟩],
      [], false, none, "zzz", "octocat"⟩
    rfl (by decide) (by decide) (by decide)

/-- C10: when the username trims to the empty string, invoking the
fetch is a no-op: no request is issued and the whole component state
is returned unchanged. -/
theorem blank_username_noop (s : ComponentState) (token : Option String)
    (result : FetchResult)
    (hu : jsStrTruthy (jsTrim s.username) = false) :
    fetchGitHubPagesStep s token result = (s, none) := by
  unfold fetchGitHubPagesStep
  rw [hu]
  simp

/-- Witness for C10: a whitespace-only username makes the fetch return
the state unchanged with no request. -/
theorem blank_username_noop_witness :
    fetchGitHubPagesStep ⟨[], [], false, none, "", "   "⟩ none
      (.networkFailure .nonError) =
      (⟨[], [], false, none, "", "   "⟩, none) :=
  blank_username_noop ⟨[], [], false, none, "", "   "⟩ none
    (.networkFailure .nonError) (by decide)

end GitHubPagesExplorer
